import Mathlib

/-!
# Verification of the race-analyzer data-transform step

Shallow embedding of `src/app.py` (a Dash triathlon race visualizer).
The embedded parts are:

* `time_to_seconds` (lines 10-21) — `timeToSeconds` below, over
  `Option String` (a pandas cell that is missing/NaN is `none`; note that
  `pandas.read_csv` turns an empty CSV cell into NaN, so "empty/missing"
  reaches `time_to_seconds` as a NaN, caught by `pd.isna`).
* `process_data` (lines 24-46) — `processData` below: the
  `'csv' in filename` gate, the `read_csv` outcome (abstracted as an
  `Except` input), the per-cell time conversion (which runs *outside*
  the `try` block, so a conversion failure is an uncaught exception,
  modelled by `ProcOutcome.raised`), and the cumulative-column step
  (`cumTimes` / `toRow`).
* `create_figure` (lines 224-315) — `createTraces` below: per-column
  ranking (`rankMin`, pandas `rank(method='min', na_option='bottom')`),
  per-column leader gaps (`gapOf`, `df[split] - df[split].min()`), the
  gap-mode `Run_Cum` filter, the sort by `Position` (nulls last), the
  per-athlete polyline loop with its break-on-NaN and rank-mode padding
  branch, the hover-text construction and the opacity rule.
* the error path of `update_graph` (lines 204-221) — `updateGraph` below.

Machine floats only ever hold integer-valued ranks/gaps/seconds here, so
they are modelled as `Int`; the six x-axis anchors are exact decimals,
modelled as `ℚ`.
-/

/-- Digits of a decimal literal to a natural number: `some` exactly when the
character list is non-empty and all-digits. Helper for `pyIntL`. -/
def digitsToNat : List Char → Option Nat
  | [] => none
  | cs =>
    if cs.all Char.isDigit then
      some (cs.foldl (fun acc c => 10 * acc + (c.toNat - ('0').toNat)) 0)
    else none

/-- Models Python `int(str)` on a character list: optional surrounding
whitespace, an optional single sign, then decimal digits. (Underscore digit
separators and non-ASCII digits, which Python also accepts, are not
modelled; no input in this development uses them.) `none` models the
`ValueError` that Python `int` raises. -/
def pyIntL (cs : List Char) : Option Int :=
  let t := ((cs.dropWhile Char.isWhitespace).reverse.dropWhile Char.isWhitespace).reverse
  match t with
  | '+' :: ds => (digitsToNat ds).map Int.ofNat
  | '-' :: ds => (digitsToNat ds).map (fun n => -(n : Int))
  | ds => (digitsToNat ds).map Int.ofNat

/-- Python `str.split(':')`: splits a character list on `':'`, keeping empty
pieces; always returns at least one piece (`"".split(':') == ['']`). -/
def splitColon : List Char → List (List Char)
  | [] => [[]]
  | c :: rest =>
    match splitColon rest with
    | [] => [[]]
    | g :: gs => if c = ':' then [] :: g :: gs else (c :: g) :: gs

/-- `time_to_seconds` (app.py lines 10-21). The argument is a CSV cell:
`none` is a missing value (pandas NaN — `pd.isna` is true), `some s` a
string cell. `Except.error` models an uncaught `ValueError` from `int`.
Mirrors the source exactly: NaN or the literal `"00:00:00"` give NaN
(absent, `Except.ok none`); otherwise split on `':'`; 3 parts give
`h*3600 + m*60 + s`, 2 parts give `m*60 + s`, and the `else` branch —
which Python reaches for 1 part *and* for 4 or more parts — gives
`int(parts[0])`. -/
def timeToSeconds (cell : Option String) : Except String (Option Int) :=
  match cell with
  | none => .ok none
  | some s =>
    if s = "00:00:00" then .ok none
    else
      match splitColon s.toList with
      | [a, b, c] =>
        match pyIntL a, pyIntL b, pyIntL c with
        | some h, some m, some sec => .ok (some (h * 3600 + m * 60 + sec))
        | _, _, _ => .error "invalid literal for int() with base 10"
      | [a, b] =>
        match pyIntL a, pyIntL b with
        | some m, some sec => .ok (some (m * 60 + sec))
        | _, _ => .error "invalid literal for int() with base 10"
      | a :: _ =>
        match pyIntL a with
        | some sec => .ok (some sec)
        | none => .error "invalid literal for int() with base 10"
      | [] => .error "unreachable: split always returns at least one part"

/-- `true` exactly on `Except.error`. -/
def isError : Except String (Option Int) → Bool
  | .error _ => true
  | .ok _ => false

/-- pandas NaN-propagating addition of two cells: present + present is the
sum, anything + NaN is NaN. This is what `df[a] + df[b]` does per row. -/
def optAdd : Option Int → Option Int → Option Int
  | some x, some y => some (x + y)
  | _, _ => none

/-- pandas NaN-propagating subtraction of two cells. -/
def optSub : Option Int → Option Int → Option Int
  | some x, some y => some (x - y)
  | _, _ => none

/-- One value per race segment, in the fixed canonical order
Swim, T1, Bike, T2, Run. Used both for the five parsed segment-duration
columns and for the five cumulative columns. -/
structure SegTimes where
  swim : Option Int
  t1 : Option Int
  bike : Option Int
  t2 : Option Int
  run : Option Int
deriving DecidableEq

/-- Cumulative-time columns (app.py lines 41-44):
`Swim_Cum = Swim`, then `seg_Cum = prev_Cum + seg` for the remaining
segments, with pandas NaN propagation (`optAdd`). -/
def cumTimes (d : SegTimes) : SegTimes :=
  let sc := d.swim
  let t1c := optAdd sc d.t1
  let bc := optAdd t1c d.bike
  let t2c := optAdd bc d.t2
  let rc := optAdd t2c d.run
  ⟨sc, t1c, bc, t2c, rc⟩

/-- `true` on a value strictly below `x`; NaN (`none`) compares false, as in
pandas. Helper for `rankMin`. -/
def ltVal (w : Option Int) (x : Int) : Bool :=
  match w with
  | some y => y < x
  | none => false

/-- pandas `Series.rank(method='min', na_option='bottom')` (app.py line 233)
applied to the cell `v` within the column `col`: a present value's rank is
one plus the number of present values strictly below it (tied values share
this lowest rank); `na_option='bottom'` treats NaN as larger than every
present value, so a NaN cell receives the numeric rank `#present + 1` —
NaN cells are ranked, never given a NaN rank. -/
def rankMin (col : List (Option Int)) (v : Option Int) : Int :=
  match v with
  | some x => 1 + (col.filter (fun w => ltVal w x)).length
  | none => 1 + (col.filter Option.isSome).length

/-- Modelled from the spec: "dense minimum rank (tied values share the
lowest rank number, and the next distinct value receives the next
consecutive rank)" — i.e. pandas `method='dense'`: one plus the number of
*distinct* present values strictly below. Stated only to compare with the
source's `rankMin`. -/
def denseRank (col : List (Option Int)) (v : Option Int) : Int :=
  match v with
  | some x => 1 + (((col.filterMap id).filter (fun y => decide (y < x))).dedup).length
  | none => 1 + ((col.filterMap id).dedup).length

/-- pandas `Series.min()` (app.py line 238): the minimum over the present
values of a column, NaN (`none`) if no value is present. -/
def colMin : List (Option Int) → Option Int
  | [] => none
  | none :: rest => colMin rest
  | some x :: rest =>
    match colMin rest with
    | none => some x
    | some y => some (min x y)

/-- The gap column (app.py lines 238-239): `df[split] - df[split].min()`,
per cell — NaN-propagating subtraction of the column minimum. -/
def gapOf (col : List (Option Int)) (v : Option Int) : Option Int :=
  optSub v (colMin col)

/-- A row of the transformed table as `create_figure` consumes it: the name
columns, `Position`, and the five cumulative columns. -/
structure Row where
  firstName : String
  lastName : String
  position : Option Int
  swimCum : Option Int
  t1Cum : Option Int
  bikeCum : Option Int
  t2Cum : Option Int
  runCum : Option Int
deriving DecidableEq

/-- `f"{athlete['Athlete First Name']} {athlete['Athlete Last Name']}"`. -/
def fullName (r : Row) : String :=
  r.firstName ++ " " ++ r.lastName

/-- A parsed athlete record as produced by `process_data`'s conversion
step: names, `Position`, the five parsed segment durations and the parsed
`Total Time`. -/
structure AthleteRec where
  firstName : String
  lastName : String
  position : Option Int
  durs : SegTimes
  total : Option Int
deriving DecidableEq

/-- The cumulative-column step of `process_data` (app.py lines 41-44),
per row: attach the `cumTimes` of the parsed durations. -/
def toRow (a : AthleteRec) : Row :=
  let ct := cumTimes a.durs
  ⟨a.firstName, a.lastName, a.position, ct.swim, ct.t1, ct.bike, ct.t2, ct.run⟩

/-- The two values of the `calculation-mode` radio control. -/
inductive Mode where
  | position
  | time_gap
deriving DecidableEq

/-- One row's five cumulative cells, in segment order. -/
def segCums (r : Row) : List (Option Int) :=
  [r.swimCum, r.t1Cum, r.bikeCum, r.t2Cum, r.runCum]

/-- The five cumulative columns of the table, in segment order. -/
def columns (rows : List Row) : List (List (Option Int)) :=
  [rows.map Row.swimCum, rows.map Row.t1Cum, rows.map Row.bikeCum,
   rows.map Row.t2Cum, rows.map Row.runCum]

/-- The five derived cells of one row (app.py lines 231-239): in position
mode the rank of each cumulative cell within its column (always present),
in time-gap mode the gap to each column's minimum (NaN-propagating). The
columns are those of the *unfiltered* table, as in the source, where both
derivations run before the gap-mode `Run_Cum` filter. -/
def derivedVals (rows : List Row) (mode : Mode) (r : Row) : List (Option Int) :=
  match mode with
  | .position =>
    List.zipWith (fun v col => some (rankMin col v)) (segCums r) (columns rows)
  | .time_gap =>
    List.zipWith (fun v col => gapOf col v) (segCums r) (columns rows)

/-- `max_rank` (app.py line 234): the maximum entry of the five rank
columns. (On an empty table pandas would give NaN; the fold's base `0` is
never observable since the value is only used per athlete row.) -/
def maxRank (rows : List Row) : Int :=
  ((rows.map (derivedVals rows .position)).flatten.filterMap id).foldl max 0

/-- The six x-axis anchors `[0, 0.5, 0.6, 2.0, 2.1, 3.0]` (app.py
line 228). -/
def xVals : List ℚ :=
  [0, 1/2, 3/5, 2, 21/10, 3]

/-- The x-axis tick labels `['Start'] + segments` (app.py line 229). -/
def segLabels : List String :=
  ["Start", "Swim", "T1", "Bike", "T2", "Run"]

/-- The y-axis title per mode (app.py lines 235 and 241). -/
def yAxisTitle : Mode → String
  | .position => "Rank"
  | .time_gap => "Time Gap to Leader (seconds)"

/-- The polyline loop body (app.py lines 254-262): walk the five derived
values in segment order paired with their x anchors and stop at the first
NaN (`break` on `pd.isna(value)`). -/
def buildPoints : List (Option Int) → List ℚ → List (Int × ℚ)
  | some v :: vs, x :: xs => (v, x) :: buildPoints vs xs
  | _, _ => []

/-- Python truthiness of the `hovered_athlete` argument: `None` and the
empty string are falsy. -/
def truthy : Option String → Bool
  | none => false
  | some s => s ≠ ""

/-- The opacity rule (app.py line 268):
`1 if hovered_athlete == name else 0.2 if hovered_athlete else 0.6`. -/
def opacityOf (hovered : Option String) (name : String) : ℚ :=
  if hovered = some name then 1 else if truthy hovered then 1/5 else 3/5

/-- One plotted series: the fields of the `go.Scatter` trace that carry
data or emphasis (x, y, name, per-point hover text, opacity); pure color
styling is not modelled. -/
structure Trace where
  xs : List ℚ
  ys : List Int
  name : String
  text : List String
  opacity : ℚ
deriving DecidableEq

/-- One athlete's trace (app.py lines 250-282): start point `(x0, 0)`, one
point per segment up to the first absent derived value, then — in position
mode only — a padding point at the last reached x held at `max_rank` when
fewer than six points were produced; hover text zips `['Start'] + segments`
with the final y list (truncating at the shorter, as Python `zip` does). -/
def buildTrace (rows : List Row) (mode : Mode) (mr : Int) (hovered : Option String)
    (r : Row) : Trace :=
  let nm := fullName r
  let pts := buildPoints (derivedVals rows mode r) (xVals.drop 1)
  let ys0 : List Int := 0 :: pts.map Prod.fst
  let xs0 : List ℚ := (0 : ℚ) :: pts.map Prod.snd
  let padded : List Int × List ℚ :=
    if mode = .position ∧ ys0.length < 6 then
      (ys0 ++ [mr], xs0 ++ [(xs0.getLast?).getD 0])
    else (ys0, xs0)
  let texts := (List.zip segLabels padded.1).map
    (fun p => nm ++ "<br>Segment: " ++ p.1 ++ "<br>" ++ yAxisTitle mode ++ ": " ++ toString p.2)
  ⟨padded.2, padded.1, nm, texts, opacityOf hovered nm⟩

/-- `Position`-key comparison for `df.sort_values('Position',
na_position='last')`: present positions ascending, NaN after every present
value. -/
def posLE : Option Int → Option Int → Bool
  | _, none => true
  | none, some _ => false
  | some a, some b => a ≤ b

/-- Insert a row into a position-sorted list (helper for `sortByPos`). -/
def insertByPos (r : Row) : List Row → List Row
  | [] => [r]
  | x :: xs => if posLE r.position x.position then r :: x :: xs else x :: insertByPos r xs

/-- `df.sort_values('Position', na_position='last')` (app.py line 245),
modelled as insertion sort. (pandas' default quicksort fixes no order
among equal keys; no property proved here depends on tie order.) -/
def sortByPos : List Row → List Row
  | [] => []
  | r :: rs => insertByPos r (sortByPos rs)

/-- The series list of `create_figure` (app.py lines 224-282): derive
ranks or gaps against the full table, drop rows without `Run_Cum` in
time-gap mode (line 243), sort by `Position` with nulls last, and build
one trace per remaining athlete. -/
def createTraces (rows : List Row) (mode : Mode) (hovered : Option String) : List Trace :=
  let kept := match mode with
    | .position => rows
    | .time_gap => rows.filter (fun r => r.runCum.isSome)
  (sortByPos kept).map (buildTrace rows mode (maxRank rows) hovered)

/-- Python `'csv' in filename` on character lists: substring containment. -/
def hasSubstr (pat : List Char) : List Char → Bool
  | [] => pat.isEmpty
  | c :: rest => pat.isPrefixOf (c :: rest) || hasSubstr pat rest

/-- The file-type gate of `process_data` (app.py line 28):
`'csv' in filename` — substring containment, not an extension check. -/
def containsCsv (filename : String) : Bool :=
  hasSubstr "csv".toList filename.toList

/-- A raw tabular row as `read_csv` delivers it: name columns as strings,
`Position` already numeric-or-NaN, the six time columns as string-or-NaN
cells (pandas turns an empty cell into NaN, i.e. `none`). -/
structure RawRow where
  firstName : String
  lastName : String
  position : Option Int
  swim : Option String
  t1 : Option String
  bike : Option String
  t2 : Option String
  run : Option String
  total : Option String
deriving DecidableEq

/-- The time-conversion step of `process_data` (app.py lines 36-38) for one
row: apply `time_to_seconds` to the six time columns. (The source converts
column by column; only whether some cell fails, not which fails first, is
used here.) -/
def convertRow (r : RawRow) : Except String AthleteRec := do
  let sw ← timeToSeconds r.swim
  let t1v ← timeToSeconds r.t1
  let bk ← timeToSeconds r.bike
  let t2v ← timeToSeconds r.t2
  let rn ← timeToSeconds r.run
  let tot ← timeToSeconds r.total
  return ⟨r.firstName, r.lastName, r.position, ⟨sw, t1v, bk, t2v, rn⟩, tot⟩

/-- The message returned at app.py line 31. -/
def unsupportedMsg : String :=
  "Unsupported file type. Please upload a CSV file."

/-- The three ways `process_data` can end: a transformed table returned, an
error message returned as the second component of its pair (`(None, msg)`),
or an exception propagating out of it uncaught. -/
inductive ProcOutcome where
  | table (rows : List Row)
  | errReturned (msg : String)
  | raised (msg : String)
deriving DecidableEq

/-- `process_data` (app.py lines 24-46). `content` abstracts the result of
base64-decoding and `pd.read_csv` (an `Except.error` is the exception the
`try` block catches and returns as `str(e)`). The filename gate is
`'csv' in filename`; when it fails, `(None, unsupportedMsg)` is returned.
The time conversion and cumulative step run *after* the `try` block, so a
malformed duration there is an uncaught `ValueError` (`ProcOutcome.raised`),
not a returned message. -/
def processData (filename : String) (content : Except String (List RawRow)) : ProcOutcome :=
  if containsCsv filename then
    match content with
    | .error e => .errReturned e
    | .ok raw =>
      match raw.mapM convertRow with
      | .error e => .raised e
      | .ok recs => .table (recs.map toRow)
  else .errReturned unsupportedMsg

/-- What the `update_graph` callback (app.py lines 204-221) delivers to the
page: an empty figure with the chart area hidden
(`go.Figure(), {'display': 'none'}`), or a series list with the chart area
shown, or a callback-level exception when `process_data` raised. The
callback's outputs are only the figure and its style — there is no output
carrying an error message. -/
inductive ChartOut where
  | hiddenEmpty
  | shown (traces : List Trace)
  | callbackError (msg : String)
deriving DecidableEq

/-- The processing path of `update_graph` (app.py lines 211-216) for the
visualize trigger: call `process_data`; on a returned error message, hide
the chart and return an empty figure (the message is discarded); otherwise
build the figure from the transformed table. -/
def updateGraph (filename : String) (content : Except String (List RawRow))
    (mode : Mode) (hovered : Option String) : ChartOut :=
  match processData filename content with
  | .errReturned _ => .hiddenEmpty
  | .raised e => .callbackError e
  | .table rows => .shown (createTraces rows mode hovered)

/-! ## Helper lemmas -/

theorem optAdd_none_left (b : Option Int) : optAdd none b = none := by
  cases b <;> rfl

theorem optAdd_none_right (a : Option Int) : optAdd a none = none := by
  cases a <;> rfl

theorem optAdd_isSome {a b : Option Int} {c : Int} (h : optAdd a b = some c) :
    a.isSome = true ∧ b.isSome = true := by
  cases a <;> cases b <;> simp_all [optAdd]

theorem colMin_cons_some_isSome (y : Int) (rest : List (Option Int)) :
    (colMin (some y :: rest)).isSome = true := by
  simp only [colMin]
  cases colMin rest <;> rfl

theorem colMin_eq_none {col : List (Option Int)} (h : colMin col = none) :
    ∀ x : Int, some x ∉ col := by
  induction col with
  | nil => intro x hx; cases hx
  | cons w rest ih =>
    cases w with
    | none =>
      intro x hx
      rcases List.mem_cons.mp hx with h2 | h2
      · cases h2
      · exact ih (by simpa [colMin] using h) x h2
    | some y =>
      intro x hx
      have hs := colMin_cons_some_isSome y rest
      rw [h] at hs
      cases hs

theorem colMin_le : ∀ {col : List (Option Int)} {m x : Int},
    colMin col = some m → some x ∈ col → m ≤ x := by
  intro col
  induction col with
  | nil => intro m x _ hx; cases hx
  | cons w rest ih =>
    intro m x hm hx
    cases w with
    | none =>
      rcases List.mem_cons.mp hx with h | h
      · cases h
      · exact ih (by simpa [colMin] using hm) h
    | some y =>
      simp only [colMin] at hm
      rcases List.mem_cons.mp hx with h | h
      · cases h
        cases hrest : colMin rest with
        | none => rw [hrest] at hm; cases hm; rfl
        | some z => rw [hrest] at hm; cases hm; exact min_le_left _ _
      · cases hrest : colMin rest with
        | none => exact absurd h (colMin_eq_none hrest x)
        | some z =>
          rw [hrest] at hm
          cases hm
          exact le_trans (min_le_right _ _) (ih hrest h)

theorem colMin_isSome_of_mem {col : List (Option Int)} {x : Int}
    (hx : some x ∈ col) : (colMin col).isSome = true := by
  induction col with
  | nil => cases hx
  | cons w rest ih =>
    cases w with
    | none =>
      rcases List.mem_cons.mp hx with h | h
      · cases h
      · simpa [colMin] using ih h
    | some y => exact colMin_cons_some_isSome y rest

theorem length_filter_mono {α : Type} (p q : α → Bool) (l : List α)
    (h : ∀ a, p a = true → q a = true) :
    (l.filter p).length ≤ (l.filter q).length := by
  induction l with
  | nil => simp
  | cons a l ih =>
    rw [List.filter_cons, List.filter_cons]
    by_cases hp : p a = true
    · rw [if_pos hp, if_pos (h a hp)]
      simpa using ih
    · rw [if_neg hp]
      by_cases hq : q a = true
      · rw [if_pos hq]
        exact le_trans ih (by simp)
      · rw [if_neg hq]
        exact ih

theorem ltVal_isSome {x : Int} (w : Option Int) (h : ltVal w x = true) :
    w.isSome = true := by
  cases w <;> simp_all [ltVal]

theorem filter_ltVal_lt_filter_isSome {col : List (Option Int)} {x : Int}
    (h : some x ∈ col) :
    (col.filter (fun w => ltVal w x)).length < (col.filter Option.isSome).length := by
  induction col with
  | nil => cases h
  | cons w rest ih =>
    rw [List.filter_cons, List.filter_cons]
    rcases List.mem_cons.mp h with rfl | hmem
    · have h1 : ¬ (ltVal (some x) x = true) := by simp [ltVal]
      rw [if_neg h1, if_pos (Option.isSome_some)]
      have := length_filter_mono (fun w => ltVal w x) Option.isSome rest
        (fun a => ltVal_isSome a)
      simp only [List.length_cons]
      omega
    · have hlt := ih hmem
      by_cases hw : ltVal w x = true
      · rw [if_pos hw, if_pos (ltVal_isSome w hw)]
        simp only [List.length_cons]
        omega
      · rw [if_neg hw]
        by_cases hs : w.isSome = true
        · rw [if_pos hs]
          exact lt_trans hlt (by simp)
        · rw [if_neg hs]
          exact hlt

theorem mem_insertByPos {r x : Row} {l : List Row} :
    x ∈ insertByPos r l ↔ x = r ∨ x ∈ l := by
  induction l with
  | nil => simp [insertByPos]
  | cons a l ih =>
    simp only [insertByPos]
    by_cases h : posLE r.position a.position = true
    · rw [if_pos h]
      simp
    · rw [if_neg h]
      simp only [List.mem_cons, ih]
      tauto

theorem mem_sortByPos {x : Row} {l : List Row} : x ∈ sortByPos l ↔ x ∈ l := by
  induction l with
  | nil => simp [sortByPos]
  | cons a l ih =>
    simp only [sortByPos, mem_insertByPos, ih, List.mem_cons]

theorem derivedVals_pos_eq (rows : List Row) (r : Row) :
    derivedVals rows .position r =
      [some (rankMin (rows.map Row.swimCum) r.swimCum),
       some (rankMin (rows.map Row.t1Cum) r.t1Cum),
       some (rankMin (rows.map Row.bikeCum) r.bikeCum),
       some (rankMin (rows.map Row.t2Cum) r.t2Cum),
       some (rankMin (rows.map Row.runCum) r.runCum)] := rfl

theorem derivedVals_gap_eq (rows : List Row) (r : Row) :
    derivedVals rows .time_gap r =
      [gapOf (rows.map Row.swimCum) r.swimCum,
       gapOf (rows.map Row.t1Cum) r.t1Cum,
       gapOf (rows.map Row.bikeCum) r.bikeCum,
       gapOf (rows.map Row.t2Cum) r.t2Cum,
       gapOf (rows.map Row.runCum) r.runCum] := rfl

theorem buildTrace_of_some (rows : List Row) (mode : Mode) (mr : Int)
    (hov : Option String) (r : Row) (v1 v2 v3 v4 v5 : Int)
    (hd : derivedVals rows mode r = [some v1, some v2, some v3, some v4, some v5]) :
    buildTrace rows mode mr hov r =
      ⟨xVals, [0, v1, v2, v3, v4, v5], fullName r,
       (List.zip segLabels [0, v1, v2, v3, v4, v5]).map
         (fun p => fullName r ++ "<br>Segment: " ++ p.1 ++ "<br>" ++
           yAxisTitle mode ++ ": " ++ toString p.2),
       opacityOf hov (fullName r)⟩ := by
  simp [buildTrace, hd, xVals, buildPoints]

theorem buildTrace_hovered (rows : List Row) (mode : Mode) (mr : Int)
    (hov : Option String) (r : Row) :
    buildTrace rows mode mr hov r =
      { buildTrace rows mode mr none r with opacity := opacityOf hov (fullName r) } := rfl

theorem buildTrace_name (rows : List Row) (mode : Mode) (mr : Int)
    (hov : Option String) (r : Row) :
    (buildTrace rows mode mr hov r).name = fullName r := rfl

theorem createTraces_eq (rows : List Row) (mode : Mode) (hov : Option String) :
    createTraces rows mode hov =
      (sortByPos (match mode with
        | .position => rows
        | .time_gap => rows.filter (fun r => r.runCum.isSome))).map
        (buildTrace rows mode (maxRank rows) hov) := rfl

/-! ## Claim theorems -/

/-- C1: `time_to_seconds` maps a three-part colon-separated string to
`hours*3600 + minutes*60 + seconds`, a two-part string to
`minutes*60 + seconds`, and a one-part string to its integer value as
seconds; `"01:02:03" ↦ 3723`, `"02:03" ↦ 123`, `"45" ↦ 45`, and both the
literal `"00:00:00"` and an empty/missing cell (pandas NaN) map to absent,
never to zero seconds. -/
theorem c1_parseDuration_rules :
    timeToSeconds none = .ok none ∧
    timeToSeconds (some "00:00:00") = .ok none ∧
    timeToSeconds (some "01:02:03") = .ok (some 3723) ∧
    timeToSeconds (some "02:03") = .ok (some 123) ∧
    timeToSeconds (some "45") = .ok (some 45) ∧
    (∀ (s : String) (a b c : List Char) (x y z : Int),
      s ≠ "00:00:00" → splitColon s.toList = [a, b, c] →
      pyIntL a = some x → pyIntL b = some y → pyIntL c = some z →
      timeToSeconds (some s) = .ok (some (x * 3600 + y * 60 + z))) ∧
    (∀ (s : String) (a b : List Char) (x y : Int),
      s ≠ "00:00:00" → splitColon s.toList = [a, b] →
      pyIntL a = some x → pyIntL b = some y →
      timeToSeconds (some s) = .ok (some (x * 60 + y))) ∧
    (∀ (s : String) (a : List Char) (x : Int),
      s ≠ "00:00:00" → splitColon s.toList = [a] →
      pyIntL a = some x →
      timeToSeconds (some s) = .ok (some x)) := by
  refine ⟨rfl, rfl, rfl, rfl, rfl, ?_, ?_, ?_⟩
  · intro s a b c x y z hs hsplit hx hy hz
    simp only [String.toList] at hsplit
    simp [timeToSeconds, hs, hsplit, hx, hy, hz]
  · intro s a b x y hs hsplit hx hy
    simp only [String.toList] at hsplit
    simp [timeToSeconds, hs, hsplit, hx, hy]
  · intro s a x hs hsplit hx
    simp only [String.toList] at hsplit
    simp [timeToSeconds, hs, hsplit, hx]

/-- Witness for C1: the three-part rule applied at the concrete input
`"2:05:07"`. -/
theorem c1_witness :
    ("2:05:07" : String) ≠ "00:00:00" ∧
    timeToSeconds (some "2:05:07") = .ok (some (2 * 3600 + 5 * 60 + 7)) :=
  ⟨by decide,
   c1_parseDuration_rules.2.2.2.2.2.1 "2:05:07" ['2'] ['0', '5'] ['0', '7'] 2 5 7
     (by decide) rfl rfl rfl rfl⟩

/-- C2: in the cumulative-time builder, `Swim_Cum = Swim` and each later
cumulative column is the NaN-propagating sum of the previous cumulative
column and the segment's duration: present + present is the sum, and if
either operand is absent the result is absent; in particular an absent
Bike duration makes the Bike, T2 and Run cumulatives all absent, with no
zero-fill. -/
theorem c2_cumulative_absence_propagation :
    (∀ d : SegTimes,
      (cumTimes d).swim = d.swim ∧
      (cumTimes d).t1 = optAdd (cumTimes d).swim d.t1 ∧
      (cumTimes d).bike = optAdd (cumTimes d).t1 d.bike ∧
      (cumTimes d).t2 = optAdd (cumTimes d).bike d.t2 ∧
      (cumTimes d).run = optAdd (cumTimes d).t2 d.run) ∧
    (∀ x y : Int, optAdd (some x) (some y) = some (x + y)) ∧
    (∀ a b : Option Int, a = none ∨ b = none → optAdd a b = none) ∧
    (∀ d : SegTimes, d.bike = none →
      (cumTimes d).bike = none ∧ (cumTimes d).t2 = none ∧ (cumTimes d).run = none) := by
  refine ⟨fun d => ⟨rfl, rfl, rfl, rfl, rfl⟩, fun x y => rfl, ?_, ?_⟩
  · rintro a b (rfl | rfl)
    · exact optAdd_none_left b
    · exact optAdd_none_right a
  · intro d h
    have hb : (cumTimes d).bike = none := by
      simp [cumTimes, h, optAdd_none_right]
    refine ⟨hb, ?_, ?_⟩
    · show optAdd (optAdd (optAdd d.swim d.t1) d.bike) d.t2 = none
      rw [h, optAdd_none_right, optAdd_none_left]
    · show optAdd (optAdd (optAdd (optAdd d.swim d.t1) d.bike) d.t2) d.run = none
      rw [h, optAdd_none_right, optAdd_none_left, optAdd_none_left]

/-- Witness for C2: absence propagation applied at a concrete record with
the Bike duration missing and later durations present. -/
theorem c2_witness :
    (cumTimes ⟨some 600, some 60, none, some 45, some 1200⟩).bike = none ∧
    (cumTimes ⟨some 600, some 60, none, some 45, some 1200⟩).t2 = none ∧
    (cumTimes ⟨some 600, some 60, none, some 45, some 1200⟩).run = none :=
  c2_cumulative_absence_propagation.2.2.2 ⟨some 600, some 60, none, some 45, some 1200⟩ rfl

/-- C6: for an athlete whose five segment durations are all present
non-negative integers, the cumulative values along Swim, T1, Bike, T2, Run
are all present and non-decreasing in that order. -/
theorem c6_cumulative_monotonic :
    ∀ a b c d e : Int, 0 ≤ a → 0 ≤ b → 0 ≤ c → 0 ≤ d → 0 ≤ e →
    (cumTimes ⟨some a, some b, some c, some d, some e⟩).swim = some a ∧
    (cumTimes ⟨some a, some b, some c, some d, some e⟩).t1 = some (a + b) ∧
    (cumTimes ⟨some a, some b, some c, some d, some e⟩).bike = some (a + b + c) ∧
    (cumTimes ⟨some a, some b, some c, some d, some e⟩).t2 = some (a + b + c + d) ∧
    (cumTimes ⟨some a, some b, some c, some d, some e⟩).run = some (a + b + c + d + e) ∧
    a ≤ a + b ∧ a + b ≤ a + b + c ∧ a + b + c ≤ a + b + c + d ∧
    a + b + c + d ≤ a + b + c + d + e := by
  intro a b c d e ha hb hc hd he
  refine ⟨rfl, rfl, rfl, rfl, rfl, ?_, ?_, ?_, ?_⟩ <;> omega

/-- Witness for C6: monotonicity applied at the concrete durations
600, 60, 1800, 60, 1200 seconds. -/
theorem c6_witness :
    (cumTimes ⟨some 600, some 60, some 1800, some 60, some 1200⟩).run
        = some (600 + 60 + 1800 + 60 + 1200) ∧
    (600 : Int) + 60 + 1800 ≤ 600 + 60 + 1800 + 60 :=
  ⟨(c6_cumulative_monotonic 600 60 1800 60 1200 (by decide) (by decide) (by decide)
      (by decide) (by decide)).2.2.2.2.1,
   (c6_cumulative_monotonic 600 60 1800 60 1200 (by decide) (by decide) (by decide)
      (by decide) (by decide)).2.2.2.2.2.2.2.1⟩

/-- Column used by the C3 counterexample: two athletes tied at 100 seconds
and one at 150. -/
def c3col : List (Option Int) := [some 100, some 100, some 150]

/-- C3 counterexample: the source ranks with pandas `method='min'`
(competition ranking), not dense ranking. With cumulative values
`[100, 100, 150]`, the 150 athlete's rank is 3 — one plus the number of
strictly smaller values — while the claimed dense rule ("the next distinct
value receives the next consecutive rank", `denseRank`, written from the
spec's words) would give 2. -/
theorem c3_dense_counterexample :
    rankMin c3col (some 150) = 3 ∧ denseRank c3col (some 150) = 2 ∧ (3 : Int) ≠ 2 := by
  refine ⟨by decide, by decide, by decide⟩

/-- C3 amended: rank view assigns, per cumulative column independently,
a minimum (competition) rank — a present value's rank is one plus the
number of present values strictly below it, so tied values share the
lowest rank number but the next distinct value's rank need not be
consecutive; ranks are weakly order-preserving; for cumulative times
100 and 150 the ranks are 1 and 2; and an absent value ranks strictly
worse than every present value. -/
theorem c3_min_rank_amended :
    (∀ (col : List (Option Int)) (x : Int),
      rankMin col (some x) = 1 + (col.filter (fun w => ltVal w x)).length) ∧
    (∀ (col : List (Option Int)) (x y : Int), x ≤ y →
      rankMin col (some x) ≤ rankMin col (some y)) ∧
    (∀ a b : Int, a < b →
      rankMin [some a, some b] (some a) = 1 ∧ rankMin [some a, some b] (some b) = 2) ∧
    (∀ (col : List (Option Int)) (x : Int), some x ∈ col →
      rankMin col (some x) < rankMin col none) := by
  refine ⟨fun col x => rfl, ?_, ?_, ?_⟩
  · intro col x y hxy
    have := length_filter_mono (fun w => ltVal w x) (fun w => ltVal w y) col
      (by intro a ha; cases a <;> simp_all [ltVal]; omega)
    simp only [rankMin]
    omega
  · intro a b hab
    constructor
    · simp [rankMin, List.filter, ltVal, lt_irrefl, not_lt.mpr (le_of_lt hab)]
    · simp [rankMin, List.filter, ltVal, hab, lt_irrefl]
  · intro col x hx
    have := filter_ltVal_lt_filter_isSome hx
    simp only [rankMin]
    omega

/-- Witness for C3: the two-athlete rank rule applied at cumulative Swim
times 100 and 150. -/
theorem c3_witness :
    rankMin [some 100, some 150] (some 100) = 1 ∧
    rankMin [some 100, some 150] (some 150) = 2 :=
  c3_min_rank_amended.2.2.1 100 150 (by decide)

/-- C4: the gap view subtracts each cumulative column's minimum present
value from every athlete's value in that column; an athlete holding a
column's minimum has gap 0 there, and every present value's gap is
defined and non-negative. -/
theorem c4_gap_view :
    (∀ (rows : List Row) (r : Row),
      derivedVals rows .time_gap r =
        [gapOf (rows.map Row.swimCum) r.swimCum,
         gapOf (rows.map Row.t1Cum) r.t1Cum,
         gapOf (rows.map Row.bikeCum) r.bikeCum,
         gapOf (rows.map Row.t2Cum) r.t2Cum,
         gapOf (rows.map Row.runCum) r.runCum]) ∧
    (∀ (col : List (Option Int)) (x : Int), some x ∈ col →
      ∃ m : Int, colMin col = some m ∧
        gapOf col (some x) = some (x - m) ∧ 0 ≤ x - m) ∧
    (∀ (col : List (Option Int)) (m : Int), colMin col = some m →
      gapOf col (some m) = some 0) := by
  refine ⟨fun rows r => rfl, ?_, ?_⟩
  · intro col x hx
    have hs := colMin_isSome_of_mem hx
    obtain ⟨m, hm⟩ := Option.isSome_iff_exists.mp hs
    refine ⟨m, hm, ?_, ?_⟩
    · simp [gapOf, hm, optSub]
    · have := colMin_le hm hx
      omega
  · intro col m hm
    simp [gapOf, hm, optSub]

/-- Witness for C4: the leader-gap rule applied at a concrete column whose
minimum present value is 251. -/
theorem c4_witness :
    gapOf [some 300, some 251, none] (some 251) = some 0 :=
  c4_gap_view.2.2 [some 300, some 251, none] 251 (by decide)

/-- A finishing athlete row used by the C5 counterexample and witness. -/
def c5rowA : Row := ⟨"Ann", "Ace", some 1, some 100, some 110, some 400, some 410, some 800⟩

/-- An athlete row with the Bike cumulative (and everything after) absent,
used by the C5 counterexample. -/
def c5rowC : Row := ⟨"Cid", "Cox", some 2, some 120, some 135, none, none, none⟩

/-- C5 counterexample: in rank (position) mode, the athlete with an absent
Bike cumulative does NOT get a polyline truncated at the first absent
value plus one padding point (which would have 4 points here): because
`rank(..., na_option='bottom')` assigns numeric bottom ranks to NaN cells,
the loop's `break` never fires and the athlete's polyline has all six
points, at the bottom rank for the absent segments. -/
theorem c5_truncation_counterexample :
    c5rowC.bikeCum = none ∧
    (createTraces [c5rowA, c5rowC] .position none).map Trace.ys
      = [[0, 1, 1, 1, 1, 1], [0, 2, 2, 2, 2, 2]] ∧
    ((createTraces [c5rowA, c5rowC] .position none).map Trace.ys).all
      (fun ys => ys.length = 6) = true := by
  refine ⟨rfl, by decide, by decide⟩

/-- C5 amended: in time-gap mode an athlete with no cumulative Run value
does not appear in the series list at all (every emitted trace comes from
a row with a present Run cumulative); in rank mode every athlete does
appear, but with a full six-point polyline — ranks are assigned even to
absent cumulative cells (bottom rank), so no rank-mode polyline is ever
truncated and the padding branch never fires. -/
theorem c5_exclusion_amended :
    (∀ (rows : List Row) (hov : Option String) (t : Trace),
      t ∈ createTraces rows .time_gap hov →
      ∃ r, r ∈ rows ∧ r.runCum.isSome = true ∧ t.name = fullName r) ∧
    (∀ (rows : List Row) (hov : Option String) (r : Row), r ∈ rows →
      ∃ t, t ∈ createTraces rows .position hov ∧ t.name = fullName r) ∧
    (∀ (rows : List Row) (hov : Option String) (t : Trace),
      t ∈ createTraces rows .position hov → t.ys.length = 6) := by
  refine ⟨?_, ?_, ?_⟩
  · intro rows hov t ht
    rw [createTraces_eq] at ht
    rcases List.mem_map.mp ht with ⟨r, hr, rfl⟩
    have hr2 : r ∈ rows.filter (fun r => r.runCum.isSome) := mem_sortByPos.mp hr
    have hr3 := List.mem_filter.mp hr2
    exact ⟨r, hr3.1, hr3.2, buildTrace_name _ _ _ _ _⟩
  · intro rows hov r hr
    refine ⟨buildTrace rows .position (maxRank rows) hov r, ?_, buildTrace_name _ _ _ _ _⟩
    rw [createTraces_eq]
    exact List.mem_map_of_mem _ (mem_sortByPos.mpr hr)
  · intro rows hov t ht
    rw [createTraces_eq] at ht
    rcases List.mem_map.mp ht with ⟨r, hr, rfl⟩
    rw [buildTrace_of_some rows .position (maxRank rows) hov r
      (rankMin (rows.map Row.swimCum) r.swimCum)
      (rankMin (rows.map Row.t1Cum) r.t1Cum)
      (rankMin (rows.map Row.bikeCum) r.bikeCum)
      (rankMin (rows.map Row.t2Cum) r.t2Cum)
      (rankMin (rows.map Row.runCum) r.runCum)
      (derivedVals_pos_eq rows r)]
    rfl

/-- Witness for C5: the six-point rule applied to a concrete one-athlete
table in rank mode. -/
theorem c5_witness :
    (buildTrace [c5rowA] Mode.position (maxRank [c5rowA]) none c5rowA).ys.length = 6 :=
  c5_exclusion_amended.2.2 [c5rowA] none
    (buildTrace [c5rowA] Mode.position (maxRank [c5rowA]) none c5rowA)
    (by rw [createTraces_eq]; exact List.mem_map_of_mem _ (by decide))

/-- C7 counterexample: the claim says parsing fails whenever the colon part
count is not 1, 2 or 3; but the source's `else` branch also catches 4 or
more parts and returns `int(parts[0])`, so `"1:2:3:4"` (four parts)
parses without error to 1 second. -/
theorem c7_part_count_counterexample :
    (splitColon "1:2:3:4".toList).length = 4 ∧
    timeToSeconds (some "1:2:3:4") = .ok (some 1) ∧
    isError (timeToSeconds (some "1:2:3:4")) = false := by
  refine ⟨rfl, rfl, rfl⟩

/-- C7 amended: for a non-empty input other than `"00:00:00"`,
`time_to_seconds` fails with an error exactly when the parts it consults
are non-numeric — all three parts of a 3-part input, both parts of a
2-part input, and only the first part otherwise (1 part or 4+ parts); a
4-or-more-part input with a numeric first part is accepted, returning the
first part's value as seconds, and every accepted-format input returns a
value without error. -/
theorem c7_error_amended :
    (∀ (s : String) (a b c : List Char), s ≠ "00:00:00" →
      splitColon s.toList = [a, b, c] →
      (isError (timeToSeconds (some s)) = true ↔
        (pyIntL a = none ∨ pyIntL b = none ∨ pyIntL c = none))) ∧
    (∀ (s : String) (a b : List Char), s ≠ "00:00:00" →
      splitColon s.toList = [a, b] →
      (isError (timeToSeconds (some s)) = true ↔
        (pyIntL a = none ∨ pyIntL b = none))) ∧
    (∀ (s : String) (a : List Char) (rest : List (List Char)), s ≠ "00:00:00" →
      splitColon s.toList = a :: rest → rest.length ≠ 1 → rest.length ≠ 2 →
      (isError (timeToSeconds (some s)) = true ↔ pyIntL a = none)) := by
  refine ⟨?_, ?_, ?_⟩
  · intro s a b c hs hsplit
    simp only [String.toList] at hsplit
    cases ha : pyIntL a <;> cases hb : pyIntL b <;> cases hc : pyIntL c <;>
      simp [timeToSeconds, hs, hsplit, ha, hb, hc, isError]
  · intro s a b hs hsplit
    simp only [String.toList] at hsplit
    cases ha : pyIntL a <;> cases hb : pyIntL b <;>
      simp [timeToSeconds, hs, hsplit, ha, hb, isError]
  · intro s a rest hs hsplit h1 h2
    simp only [String.toList] at hsplit
    match rest, h1, h2 with
    | [], _, _ =>
      cases ha : pyIntL a <;> simp [timeToSeconds, hs, hsplit, ha, isError]
    | b :: c :: d :: rest2, _, _ =>
      cases ha : pyIntL a <;> simp [timeToSeconds, hs, hsplit, ha, isError]

/-- Witness for C7: the else-branch rule applied at the five-part input
`"5:6:7:8:9"` (both sides of the iff are false: the numeric first part
parses, so no error is raised). -/
theorem c7_witness :
    isError (timeToSeconds (some "5:6:7:8:9")) = true ↔ pyIntL ['5'] = none :=
  c7_error_amended.2.2 "5:6:7:8:9" ['5'] [['6'], ['7'], ['8'], ['9']]
    (by decide) rfl (by decide) (by decide)

/-- A well-formed raw row used by the C8 counterexample. -/
def c8goodRaw : RawRow :=
  ⟨"Ann", "Ace", some 1, some "10:00", some "1:00", some "30:00", some "1:00",
   some "20:00", some "1:02:00"⟩

/-- A raw row with a malformed Swim time, used by the C8 counterexample. -/
def c8badRaw : RawRow :=
  ⟨"Bob", "Bee", some 2, some "xx:yy", some "1:00", some "30:00", some "1:00",
   some "20:00", some "1:00:00"⟩

/-- C8 counterexample: (1) the file gate is `'csv' in filename` — substring,
not extension — so the upload named `"racecsv.txt"`, whose extension is not
a recognized CSV extension, is processed and produces a table instead of
failing with the unsupported-file-type message; (2) a malformed duration is
NOT caught at the file-processing boundary: the time conversion runs
outside the `try` block, so it surfaces as an uncaught exception, not a
returned message; (3) when an error message is returned, `update_graph`
hides the chart but discards the message — no human-readable message is
surfaced in place of the chart. -/
theorem c8_boundary_counterexample :
    processData "racecsv.txt" (Except.ok [c8goodRaw]) =
      .table [⟨"Ann", "Ace", some 1, some 600, some 660, some 2460, some 2520, some 3720⟩] ∧
    processData "results.csv" (Except.ok [c8badRaw]) =
      .raised "invalid literal for int() with base 10" ∧
    updateGraph "holder.bin" (Except.ok [c8goodRaw]) Mode.position none
      = ChartOut.hiddenEmpty := by
  refine ⟨rfl, rfl, rfl⟩

/-- C8 amended: `process_data` returns the unsupported-file-type message
exactly when `'csv'` does not occur as a substring of the filename (the
extension alone is not checked); a decode/tabular failure caught by the
`try` block is returned as the raw error text; a malformed duration makes
`process_data` raise an uncaught error (the conversion runs outside the
`try` block); and whenever `process_data` returns an error message,
`update_graph` hides the chart area and returns an empty figure — the
message itself is not part of the callback's outputs. -/
theorem c8_error_amended :
    (∀ (filename : String) (content : Except String (List RawRow)),
      containsCsv filename = false →
      processData filename content = .errReturned unsupportedMsg) ∧
    (∀ (filename : String) (e : String),
      containsCsv filename = true →
      processData filename (.error e) = .errReturned e) ∧
    (∀ (filename : String) (raw : List RawRow) (e : String),
      containsCsv filename = true →
      raw.mapM convertRow = .error e →
      processData filename (.ok raw) = .raised e) ∧
    (∀ (filename : String) (content : Except String (List RawRow)) (msg : String)
        (mode : Mode) (hov : Option String),
      processData filename content = .errReturned msg →
      updateGraph filename content mode hov = .hiddenEmpty) := by
  refine ⟨?_, ?_, ?_, ?_⟩
  · intro filename content h
    simp [processData, h]
  · intro filename e h
    simp [processData, h]
  · intro filename raw e h hmap
    simp only [processData, h, eq_self_iff_true, if_true]
    rw [hmap]
  · intro filename content msg mode hov h
    simp [updateGraph, h]

/-- Witness for C8: the unsupported-file-type rule applied at the concrete
filename `"data.xlsx"`, which does not contain `'csv'`. -/
theorem c8_witness :
    containsCsv "data.xlsx" = false ∧
    processData "data.xlsx" (Except.ok []) = .errReturned unsupportedMsg :=
  ⟨by decide, c8_error_amended.1 "data.xlsx" (Except.ok []) (by decide)⟩

/-- C9: the highlight parameter only affects emphasis, never data — for any
table and mode, the series built with a highlighted athlete has, position
by position, the same x values, y values, name and per-point hover labels
as the series built with no highlight; only opacity differs: the line
whose name equals the highlighted (non-empty) name has opacity 1, every
other line 0.2, while with no highlight every line has opacity 0.6. -/
theorem c9_highlight_only_opacity :
    ∀ (rows : List Row) (mode : Mode) (hov : String), hov ≠ "" →
    (createTraces rows mode (some hov)).length = (createTraces rows mode none).length ∧
    (∀ (i : Nat) (tH tN : Trace),
      (createTraces rows mode (some hov)).get? i = some tH →
      (createTraces rows mode none).get? i = some tN →
      tH.xs = tN.xs ∧ tH.ys = tN.ys ∧ tH.name = tN.name ∧ tH.text = tN.text ∧
      tN.opacity = 3/5 ∧
      tH.opacity = (if tH.name = hov then 1 else 1/5)) := by
  intro rows mode hov hne
  constructor
  · rw [createTraces_eq, createTraces_eq]
    simp
  · intro i tH tN hH hN
    rw [createTraces_eq] at hH hN
    rw [List.get?_map] at hH hN
    rcases Option.map_eq_some'.mp hH with ⟨r, ho, htH⟩
    rw [ho] at hN
    simp only [Option.map_some'] at hN
    cases htH
    cases hN
    refine ⟨?_, ?_, ?_, ?_, ?_, ?_⟩
    · rw [buildTrace_hovered]
    · rw [buildTrace_hovered]
    · rw [buildTrace_hovered]
    · rw [buildTrace_hovered]
    · show opacityOf none (fullName r) = 3/5
      simp [opacityOf, truthy]
    · show opacityOf (some hov) (fullName r)
        = if (buildTrace rows mode (maxRank rows) (some hov) r).name = hov then 1 else 1/5
      rw [buildTrace_name]
      by_cases hcase : fullName r = hov
      · simp [opacityOf, hcase]
      · simp [opacityOf, truthy, hne, hcase, Ne.symm hcase]

/-- A finishing athlete row used by the C9 witness. -/
def c9row : Row := ⟨"Eve", "Erl", some 1, some 100, some 130, some 900, some 930, some 1500⟩

/-- Witness for C9: the data-invariance rule applied to a concrete
one-athlete table with that athlete highlighted. -/
theorem c9_witness :
    ("Eve Erl" : String) ≠ "" ∧
    (createTraces [c9row] .position (some "Eve Erl")).length
      = (createTraces [c9row] .position none).length :=
  ⟨by decide, (c9_highlight_only_opacity [c9row] .position "Eve Erl" (by decide)).1⟩

theorem gapOf_isSome {col : List (Option Int)} {x : Int} (hx : some x ∈ col) :
    (gapOf col (some x)).isSome = true := by
  obtain ⟨m, hm⟩ := Option.isSome_iff_exists.mp (colMin_isSome_of_mem hx)
  simp [gapOf, hm, optSub]

theorem optAdd_isSome_left {a b : Option Int} (h : (optAdd a b).isSome = true) :
    a.isSome = true ∧ b.isSome = true := by
  obtain ⟨c, hc⟩ := Option.isSome_iff_exists.mp h
  exact optAdd_isSome hc

/-- C10 (implicit): in time-gap mode, every athlete retained in the view —
one with a present cumulative Run value, where the cumulative columns come
from the cumulative builder — has all five gap values present (cumulative
absence propagates forward, so a present Run cumulative forces all earlier
cumulatives present, and each column's minimum exists because the
athlete's own value is in the column); hence every gap-mode polyline
contains all six points and is never truncated. -/
theorem c10_gap_mode_full_polyline :
    (∀ (recs : List AthleteRec) (r : Row),
      r ∈ recs.map toRow → r.runCum.isSome = true →
      ∀ v ∈ derivedVals (recs.map toRow) .time_gap r, v.isSome = true) ∧
    (∀ (recs : List AthleteRec) (hov : Option String) (t : Trace),
      t ∈ createTraces (recs.map toRow) .time_gap hov →
      t.ys.length = 6 ∧ t.xs.length = 6) := by
  have hcums : ∀ (a : AthleteRec), (toRow a).runCum.isSome = true →
      (toRow a).swimCum.isSome = true ∧ (toRow a).t1Cum.isSome = true ∧
      (toRow a).bikeCum.isSome = true ∧ (toRow a).t2Cum.isSome = true := by
    intro a hrun
    have hrun2 : (optAdd (cumTimes a.durs).t2 a.durs.run).isSome = true := hrun
    have ht2 : ((cumTimes a.durs).t2).isSome = true := (optAdd_isSome_left hrun2).1
    have ht2b : (optAdd (cumTimes a.durs).bike a.durs.t2).isSome = true := ht2
    have hbk : ((cumTimes a.durs).bike).isSome = true := (optAdd_isSome_left ht2b).1
    have hbk2 : (optAdd (cumTimes a.durs).t1 a.durs.bike).isSome = true := hbk
    have ht1 : ((cumTimes a.durs).t1).isSome = true := (optAdd_isSome_left hbk2).1
    have ht1b : (optAdd (cumTimes a.durs).swim a.durs.t1).isSome = true := ht1
    have hsw : ((cumTimes a.durs).swim).isSome = true := (optAdd_isSome_left ht1b).1
    exact ⟨hsw, ht1, hbk, ht2⟩
  have hmain : ∀ (recs : List AthleteRec) (r : Row),
      r ∈ recs.map toRow → r.runCum.isSome = true →
      ∀ v ∈ derivedVals (recs.map toRow) .time_gap r, v.isSome = true := by
    intro recs r hr hrun v hv
    rcases List.mem_map.mp hr with ⟨a, ha, rfl⟩
    obtain ⟨hsw, ht1, hbk, ht2⟩ := hcums a hrun
    rw [derivedVals_gap_eq] at hv
    simp only [List.mem_cons, List.not_mem_nil, or_false] at hv
    have hmem : ∀ f : Row → Option Int, f (toRow a) ∈ (recs.map toRow).map f :=
      fun f => List.mem_map_of_mem f hr
    rcases hv with hv | hv | hv | hv | hv <;> subst hv
    · obtain ⟨x, hx⟩ := Option.isSome_iff_exists.mp hsw
      rw [hx]
      exact gapOf_isSome (hx ▸ hmem Row.swimCum)
    · obtain ⟨x, hx⟩ := Option.isSome_iff_exists.mp ht1
      rw [hx]
      exact gapOf_isSome (hx ▸ hmem Row.t1Cum)
    · obtain ⟨x, hx⟩ := Option.isSome_iff_exists.mp hbk
      rw [hx]
      exact gapOf_isSome (hx ▸ hmem Row.bikeCum)
    · obtain ⟨x, hx⟩ := Option.isSome_iff_exists.mp ht2
      rw [hx]
      exact gapOf_isSome (hx ▸ hmem Row.t2Cum)
    · obtain ⟨x, hx⟩ := Option.isSome_iff_exists.mp hrun
      rw [hx]
      exact gapOf_isSome (hx ▸ hmem Row.runCum)
  refine ⟨hmain, ?_⟩
  intro recs hov t ht
  rw [createTraces_eq] at ht
  rcases List.mem_map.mp ht with ⟨r, hr, rfl⟩
  have hr2 := List.mem_filter.mp (mem_sortByPos.mp hr)
  have hall := hmain recs r hr2.1 hr2.2
  rw [derivedVals_gap_eq] at hall
  obtain ⟨v1, hv1⟩ := Option.isSome_iff_exists.mp
    (hall (gapOf ((recs.map toRow).map Row.swimCum) r.swimCum) (by simp))
  obtain ⟨v2, hv2⟩ := Option.isSome_iff_exists.mp
    (hall (gapOf ((recs.map toRow).map Row.t1Cum) r.t1Cum) (by simp))
  obtain ⟨v3, hv3⟩ := Option.isSome_iff_exists.mp
    (hall (gapOf ((recs.map toRow).map Row.bikeCum) r.bikeCum) (by simp))
  obtain ⟨v4, hv4⟩ := Option.isSome_iff_exists.mp
    (hall (gapOf ((recs.map toRow).map Row.t2Cum) r.t2Cum) (by simp))
  obtain ⟨v5, hv5⟩ := Option.isSome_iff_exists.mp
    (hall (gapOf ((recs.map toRow).map Row.runCum) r.runCum) (by simp))
  have hd : derivedVals (recs.map toRow) .time_gap r
      = [some v1, some v2, some v3, some v4, some v5] := by
    rw [derivedVals_gap_eq, hv1, hv2, hv3, hv4, hv5]
  rw [buildTrace_of_some _ _ _ _ _ v1 v2 v3 v4 v5 hd]
  exact ⟨rfl, rfl⟩

/-- A fully-finishing parsed athlete record used by the C10 witness. -/
def c10rec : AthleteRec :=
  ⟨"Ann", "Ace", some 1, ⟨some 600, some 60, some 1800, some 60, some 1200⟩, some 3720⟩

/-- Witness for C10: the six-point rule applied to a concrete one-athlete
table in time-gap mode. -/
theorem c10_witness :
    (buildTrace ([c10rec].map toRow) Mode.time_gap (maxRank ([c10rec].map toRow))
        none (toRow c10rec)).ys.length = 6 ∧
    (buildTrace ([c10rec].map toRow) Mode.time_gap (maxRank ([c10rec].map toRow))
        none (toRow c10rec)).xs.length = 6 :=
  c10_gap_mode_full_polyline.2 [c10rec] none
    (buildTrace ([c10rec].map toRow) Mode.time_gap (maxRank ([c10rec].map toRow))
      none (toRow c10rec))
    (by rw [createTraces_eq]; exact List.mem_map_of_mem _ (by decide))
